import Mathlib

/-!
Shallow embedding of `src/troubleshoot.py` (toolscreen-discord-bot):
the troubleshooting-tree loader/validator, the action-token codec implicit
in `render_node` and `TroubleshootButton.callback`, the node renderer and
the hit-counter updates.  Python strings are modelled by Lean `String`
(both are sequences of code points, so `s[:n]`, `endswith`, `rsplit` agree
with the list-of-`Char` operations used below).
-/

namespace Toolscreen

/-- Python `s[:n]` (slice of the first `n` code points). -/
def pySlice (s : String) (n : Nat) : String := ⟨s.data.take n⟩

/-- Python `s.endswith(t)`. -/
def pyEndsWith (s t : String) : Bool := decide (t.data <:+ s.data)

/-- Python `s.removesuffix(t)`: drop a final occurrence of `t` when present. -/
def pyRemoveSuffix (s t : String) : String :=
  if pyEndsWith s t then ⟨s.data.take (s.data.length - t.data.length)⟩ else s

/-- Python `s.rsplit(":", 1)[0]`: everything before the last colon,
or the whole string when it has no colon. -/
def pyRsplitBase (s : String) : String :=
  if ':' ∈ s.data then ⟨((s.data.reverse.dropWhile (fun c => c ≠ ':')).tail).reverse⟩
  else s

/-- The ASCII whitespace characters stripped by Python `str.strip()`. -/
def pyIsSpace (c : Char) : Bool :=
  c = ' ' || c = '\t' || c = '\n' || c = '\x0d' || c = '\x0b' || c = '\x0c'

/-- Python `s.rstrip()` (ASCII whitespace). -/
def pyRstrip (s : String) : String :=
  ⟨(s.data.reverse.dropWhile pyIsSpace).reverse⟩

/-- Python `s.strip()` (ASCII whitespace). -/
def pyStrip (s : String) : String :=
  ⟨((s.data.dropWhile pyIsSpace).reverse.dropWhile pyIsSpace).reverse⟩

/-- Decimal digits with explicit fuel (structural recursion, so concrete
values reduce inside the kernel); `fuel > n` always suffices. -/
def natDigitsAux : Nat → Nat → List Char
  | 0, _ => []
  | fuel + 1, n =>
    if n < 10 then [Nat.digitChar n]
    else natDigitsAux fuel (n / 10) ++ [Nat.digitChar (n % 10)]

/-- Decimal digits of `n`, most significant first; mirrors the decimal
rendering used by a Python f-string for a nonnegative `int`. -/
def natDigits (n : Nat) : List Char := natDigitsAux (n + 1) n

/-- Decimal rendering of `n`, as in Python `f"{n}"`. -/
def natDec (n : Nat) : String := ⟨natDigits n⟩

/-- Value of a digit list read back in base 10. -/
def digitsVal (l : List Char) : Nat := l.foldl (fun a c => 10 * a + (c.toNat - 48)) 0

/-- First-match lookup in an association list; Python `dict` access for the
node map decoded from YAML (keys are unique, so first match is the match). -/
def dictGet {α : Type} (m : List (String × α)) (k : String) : Option α :=
  match m with
  | [] => none
  | (k', v) :: rest => if k' = k then some v else dictGet rest k

/-- Python `"\n".join`. -/
def joinNL : List String → String
  | [] => ""
  | [s] => s
  | s :: rest => s ++ "\n" ++ joinNL rest

/-! ### Data model (`troubleshooting-tree.yaml` decoded, §3 of the YAML shape)

`dict.get` returns `None` for a missing key and the code only ever tests
these references for truthiness (`if ref:`), under which `None` and `""`
coincide; absent string-valued keys are therefore modelled as `""`. -/

/-- One entry of a question node's `options` list (`label`, `next`). -/
structure TSOption where
  label : String
  next : String
deriving DecidableEq

/-- One entry of an escalate node's `collect` list (`key`, `prompt`). -/
structure CollectItem where
  key : String
  prompt : String
deriving DecidableEq

/-- A decoded tree node: `type`, `text`, `options`, `next`, `did_not_help`,
`collect`, with `""`/`[]` for absent keys. -/
structure Node where
  type : String
  text : String := ""
  options : List TSOption := []
  next : String := ""
  did_not_help : String := ""
  collect : List CollectItem := []
deriving DecidableEq

/-- The module-level `_nodes` dict: an id-keyed map with unique keys,
kept as an association list in insertion order. -/
abbrev NodeMap := List (String × Node)

/-- An active known-bug overlay as stored in `_bug_by_node` values
(`name`, `discord_thread`). -/
structure Bug where
  name : String
  discord_thread : String
deriving DecidableEq

/-- The `_bug_by_node` index: node id to its active overlay, if any. -/
abbrev BugIndex := String → Option Bug

/-- The `node_hits` table of `bot.db`: hit count per key, 0 before first hit. -/
abbrev Db := String → Nat

/-- Python `_hit(node_id)` (lines 26-31): upsert-and-increment of one counter. -/
def hitInc (db : Db) (k : String) : Db :=
  fun x => if x = k then db k + 1 else db x

/-- The `ValueError`s `_validate_tree` can raise, by message shape. -/
inductive ConfigError where
  | missingOptionRef (nid ref : String)
  | missingDidNotHelp (nid ref : String)
  | idTooLong (nid : String)
deriving DecidableEq

deriving instance DecidableEq for Except

/-- Membership test `ref in ids` where `ids = set(_nodes.keys())`. -/
def hasNode (m : NodeMap) (ref : String) : Bool := (dictGet m ref).isSome

/-- The inner `for opt in node.get("options", [])` loop of `_validate_tree`
(lines 77-80): the first dangling option target raises. -/
def checkOptions (m : NodeMap) (nid : String) : List TSOption → Except ConfigError Unit
  | [] => .ok ()
  | opt :: rest =>
    if opt.next ≠ "" && !(hasNode m opt.next) then .error (.missingOptionRef nid opt.next)
    else checkOptions m nid rest

/-- The body of `_validate_tree`'s outer loop for one node (lines 77-85):
option targets, then `did_not_help`, then the solved-token length bound.
The node-level `next` reference is never inspected here. -/
def checkNode (m : NodeMap) (nid : String) (node : Node) : Except ConfigError Unit := do
  checkOptions m nid node.options
  if node.did_not_help ≠ "" && !(hasNode m node.did_not_help) then
    throw (.missingDidNotHelp nid node.did_not_help)
  if ("ts:" ++ nid ++ ":solved").length > 100 then
    throw (.idTooLong nid)

/-- The outer `for nid, node in _nodes.items()` loop of `_validate_tree`. -/
def validateNodes (m : NodeMap) : List (String × Node) → Except ConfigError Unit
  | [] => .ok ()
  | (nid, node) :: rest => do
    checkNode m nid node
    validateNodes m rest

/-- Python `_validate_tree()` (lines 74-85) over the current node map. -/
def validateTree (m : NodeMap) : Except ConfigError Unit := validateNodes m m

/-- The tree part of `load_tree` (lines 46-55) as a transition on the
module-level `_nodes` map: `_nodes.clear(); _nodes.update(data["nodes"])`
runs *before* `_validate_tree()`, so the published map equals the incoming
`data` whether or not validation raises; the previous map `_prev` is never
restored. The first component is the validation outcome (`ok` = the
function returns, `error` = the `ValueError` propagates), the second the
`_nodes` map observable afterwards. -/
def load_tree (_prev : NodeMap) (data : NodeMap) : Except ConfigError Unit × NodeMap :=
  (validateTree data, data)

/-! ### Render surface (embeds, buttons, selects) -/

abbrev Colour := Nat

def CLR_QUESTION : Colour := 0x5865F2
def CLR_SOLUTION : Colour := 0x57F287
def CLR_INFO : Colour := 0xF1C40F
def CLR_ESCALATE : Colour := 0xE67E22
def CLR_DONE : Colour := 0x2b2d31
def CLR_RED : Colour := 0xED4245

def SELECT_THRESHOLD : Nat := 5

structure EmbedField where
  name : String
  value : String
deriving DecidableEq

structure Embed where
  title : String
  description : String
  colour : Colour
  fields : List EmbedField := []
deriving DecidableEq

inductive ButtonStyle where
  | primary
  | secondary
  | success
deriving DecidableEq

/-- A view item: a `discord.ui.Button` or the `TroubleshootSelect`. -/
inductive Item where
  | button (label : String) (custom_id : String) (style : ButtonStyle)
      (emoji : Option String) (row : Option Nat)
  | select (custom_id : String) (placeholder : String)
      (options : List (String × String))
deriving DecidableEq

def GUILD_ID : String := "1472102343381352539"

def MORE_HELP_ID : String := "1472103482201997499"

def MORE_HELP_URL : String := "https://discord.com/channels/" ++ GUILD_ID ++ "/" ++ MORE_HELP_ID

/-- Python `_thread_url` (lines 178-179). -/
def thread_url (tid : String) : String :=
  "https://discord.com/channels/" ++ GUILD_ID ++ "/" ++ tid

/-- Python `_embed_for` (lines 88-99): title/colour from `type` with question
styling as the fallback, body `node.get("text", "").strip()`. -/
def embed_for (node : Node) : Embed :=
  let text := pyStrip node.text
  if node.type = "question" then ⟨"Troubleshooting", text, CLR_QUESTION, []⟩
  else if node.type = "solution" then ⟨"Possible fix", text, CLR_SOLUTION, []⟩
  else if node.type = "info" then ⟨"Info", text, CLR_INFO, []⟩
  else if node.type = "escalate" then ⟨"Further help needed", text, CLR_ESCALATE, []⟩
  else ⟨"Troubleshooting", text, CLR_QUESTION, []⟩

/-- Python `_error_embed` (lines 213-214). -/
def error_embed (msg : String) : Embed := ⟨"Error", msg, CLR_RED, []⟩

/-- Python `_add_escalate_content` (lines 182-200). -/
def add_escalate_content (bugs : BugIndex) (embed : Embed) (node : Node)
    (node_id : String) : Embed :=
  let desc :=
    match bugs node_id with
    | some bug =>
        pyRstrip embed.description
          ++ "\n\nThis is a **known issue**: [" ++ bug.name ++ "]("
          ++ thread_url bug.discord_thread ++ ")"
          ++ "\nPost a message there to get notified when it\x27s resolved and help the developers with additional info."
    | none =>
        pyRstrip embed.description
          ++ "\n\nHead to [#more-help](" ++ MORE_HELP_URL
          ++ ") and create a new post with the **Bug** tag."
  let fields :=
    if node.collect ≠ [] then
      embed.fields ++ [⟨"Include in your post",
        pySlice (joinNL (node.collect.map
          (fun c => "- **" ++ c.key ++ "**: " ++ c.prompt))) 1024⟩]
    else embed.fields
  { embed with description := desc, fields := fields }

/-- The custom id given to a question option's button (lines 130-132):
`ts:<target>` for the first occurrence of a target within the node's option
list, `ts:<target>:<count>` for later occurrences. -/
def encodeCid (target : String) (count : Nat) : String :=
  if count = 0 then "ts:" ++ target else "ts:" ++ target ++ ":" ++ natDec count

/-- The `for i, opt in enumerate(options)` button loop (lines 126-136),
carrying the running index and the `seen` occurrence-count dict. -/
def questionButtons : List TSOption → Nat → (String → Nat) → List Item
  | [], _, _ => []
  | opt :: rest, i, seen =>
    let target := opt.next
    let count := seen target
    Item.button (pySlice opt.label 80) (encodeCid target count) .primary none (some (i / 5))
      :: questionButtons rest (i + 1) (fun t => if t = target then count + 1 else seen t)

/-- Python `TroubleshootSelect.__init__` (lines 217-227): one select listing every
option, labels truncated to 100 characters, values the bare targets. -/
def selectItem (node_id : String) (options : List TSOption) : Item :=
  .select ("ts_sel:" ++ node_id) "Select your issue..."
    (options.map (fun opt => (pySlice opt.label 100, opt.next)))

/-- The universal "Start over" button (lines 165-168). -/
def startOverButton : Item :=
  .button "Start over" "ts:root" .secondary (some "🔄") (some 4)

/-- Python `render_node` (lines 102-170). -/
def render_node (nodes : NodeMap) (bugs : BugIndex) (node_id : String) :
    Embed × List Item :=
  match dictGet nodes node_id with
  | none => (error_embed ("Unknown node `" ++ node_id ++ "`"), [])
  | some node =>
    let embed := embed_for node
    let embed :=
      if node.type = "solution" then
        match bugs node_id with
        | some bug =>
            { embed with fields := embed.fields ++ [⟨"Known issue",
                "[" ++ bug.name ++ "](" ++ thread_url bug.discord_thread
                  ++ ") - post there to get notified on updates."⟩] }
        | none => embed
      else embed
    if node.type = "question" then
      let options := node.options
      let items :=
        if options.length > SELECT_THRESHOLD then [selectItem node_id options]
        else questionButtons options 0 (fun _ => 0)
      (embed, items ++ [startOverButton])
    else if node.type = "solution" then
      let items := [Item.button "That solved it!" ("ts:" ++ node_id ++ ":solved")
        .success (some "✅") none]
      let items :=
        if node.did_not_help ≠ "" then
          items ++ [Item.button "Still having issues" ("ts:" ++ node.did_not_help)
            .secondary none none]
        else items
      (embed, items ++ [startOverButton])
    else if node.type = "info" then
      let items :=
        if node.next ≠ "" then
          [Item.button "Continue" ("ts:" ++ node.next) .primary none none]
        else []
      (embed, items ++ [startOverButton])
    else if node.type = "escalate" then
      let embed := add_escalate_content bugs embed node node_id
      (embed, [Item.button "That solved it!" ("ts:" ++ node_id ++ ":solved")
        .success (some "✅") none, startOverButton])
    else
      (embed, [startOverButton])

/-- Python `_render_solved` (lines 203-209). -/
def render_solved : Embed × List Item :=
  (⟨"Issue resolved",
    "Glad that\x27s sorted! Use `/troubleshoot` again if anything else comes up.",
    CLR_DONE, []⟩, [])

/-! ### Dispatcher (`TroubleshootButton.callback`, lines 251-269) -/

/-- The navigation action decoded from a button payload. -/
inductive Action where
  | solved (hitKey : String)
  | goto (node_id : String)
deriving DecidableEq

/-- The decode logic of `TroubleshootButton.callback` (lines 254-262):
the literal `:solved` suffix is tested first; otherwise the payload is
looked up directly and, failing that, its last colon-delimited segment is
stripped and the prefix looked up; an unresolved payload is kept as-is. -/
def decodeAction (nodes : NodeMap) (payload : String) : Action :=
  if pyEndsWith payload ":solved" then
    .solved (pyRemoveSuffix payload ":solved" ++ ":solved")
  else
    let node_id := payload
    let node_id :=
      if (dictGet nodes node_id).isSome then node_id
      else
        let base := pyRsplitBase node_id
        if (dictGet nodes base).isSome then base else node_id
    .goto node_id

/-- Python `TroubleshootButton.callback` (lines 251-269) minus the reply call:
the rendered payload and the hit-counter store after `_hit`. -/
def dispatch (nodes : NodeMap) (bugs : BugIndex) (db : Db) (payload : String) :
    (Embed × List Item) × Db :=
  match decodeAction nodes payload with
  | .solved key => (render_solved, hitInc db key)
  | .goto nid => (render_node nodes bugs nid, hitInc db nid)

/-- The `DynamicItem` template `r"ts:(?P<payload>.+)"` (line 239) applied to
a custom id (`re.fullmatch` semantics): it matches exactly the ids of the
form `ts:` followed by a nonempty payload, which the callback receives
(`.+` is greedy, so the payload is the whole remainder, colons included). -/
def matchPayload (custom_id : String) : Option String :=
  if custom_id.data.take 3 = ['t', 's', ':'] ∧ custom_id.data.length > 3 then
    some ⟨custom_id.data.drop 3⟩
  else none

/-- A dispatched payload takes the `Unknown node` branch of `render_node`. -/
def unknownOutcome (nodes : NodeMap) (payload : String) : Bool :=
  match decodeAction nodes payload with
  | .solved _ => false
  | .goto nid => (dictGet nodes nid).isNone

/-! ### Auxiliary observers and concrete inputs used by the theorems -/

/-- The custom id carried by a view item. -/
def itemCid : Item → String
  | .button _ cid _ _ _ => cid
  | .select cid _ _ => cid

/-- The custom ids assigned to a list of option targets, mirroring the
`seen`-count logic of the button loop (lines 126-132) target-by-target. -/
def cidAssign : List String → (String → Nat) → List String
  | [], _ => []
  | t :: rest, seen =>
    encodeCid t (seen t) :: cidAssign rest (fun u => if u = t then seen t + 1 else seen u)

/-- An empty `_bug_by_node` index (no `known-bugs.yaml` or no active bug). -/
def bugsNone : BugIndex := fun _ => none

/-- A fresh hit-counter store (every count 0). -/
def db0 : Db := fun _ => 0

/-- A minimal solution node used by several concrete trees. -/
def solNode : Node := { type := "solution" }

def exPrevC1 : NodeMap := [("a", { type := "solution", text := "old fix" })]

def exBadC1 : NodeMap := [("b", { type := "solution", did_not_help := "missing" })]

def exTreeC2 : NodeMap :=
  [("intro", { type := "info", next := "ghost" }),
   ("q", { type := "question", options := [⟨"Go", "intro"⟩] })]

def exTreeC3 : NodeMap := [("root", { type := "info", text := "Welcome", next := "nowhere" })]

def exTreeC4 : NodeMap := [("root", { type := "question" })]

def exTreeC5 : NodeMap := [("start", { type := "escalate", text := "Contact us" })]

def exTreeC5w : NodeMap := [("root", { type := "question" })]

def exTreeC6 : NodeMap :=
  [("big", { type := "question", options :=
      [⟨"a", "t1"⟩, ⟨"b", "t1"⟩, ⟨"c", "t2"⟩, ⟨"d", "t3"⟩, ⟨"e", "t4"⟩, ⟨"f", "t5"⟩] }),
   ("t1", solNode), ("t2", solNode), ("t3", solNode), ("t4", solNode), ("t5", solNode)]

def exTreeC6b : NodeMap :=
  [("q", { type := "question", options := [⟨"A", "fix"⟩, ⟨"B", "fix"⟩] }),
   ("fix", solNode)]

def exTreeC7 : NodeMap := [("x:solved", solNode)]

def exTreeC7b : NodeMap := [("crash", solNode)]

def exNodeC9 : Node := { type := "question", options := [⟨"Yes", "yes"⟩, ⟨"No", "no"⟩] }

def exTreeC9 : NodeMap := [("q", exNodeC9), ("yes", solNode), ("no", solNode)]

def exTreeC10 : NodeMap := [("n", solNode)]

/-! ### Facts about the string helpers -/

theorem natDigitsAux_congr :
    ∀ n f₁ f₂, n < f₁ → n < f₂ → natDigitsAux f₁ n = natDigitsAux f₂ n := by
  intro n
  induction n using Nat.strong_induction_on with
  | _ n ih =>
    intro f₁ f₂ h₁ h₂
    match f₁, f₂ with
    | g₁ + 1, g₂ + 1 =>
      simp only [natDigitsAux]
      by_cases h : n < 10
      · simp [h]
      · simp only [h, if_false]
        have hlt : n / 10 < n := Nat.div_lt_self (by omega) (by omega)
        rw [ih (n / 10) hlt g₁ g₂ (by omega) (by omega)]

/-- Unfolding rule for `natDigits` matching the usual recursive description. -/
theorem natDigits_eq (n : Nat) :
    natDigits n = if n < 10 then [Nat.digitChar n]
      else natDigits (n / 10) ++ [Nat.digitChar (n % 10)] := by
  show natDigitsAux (n + 1) n = _
  by_cases h : n < 10
  · simp [natDigitsAux, h]
  · simp only [natDigitsAux, h, if_false]
    have hlt : n / 10 < n := Nat.div_lt_self (by omega) (by omega)
    rw [natDigitsAux_congr (n / 10) n (n / 10 + 1) (by omega) (by omega)]
    rfl

theorem pySlice_data (s : String) (n : Nat) : (pySlice s n).data = s.data.take n := rfl

theorem string_append_data (s t : String) : (s ++ t).data = s.data ++ t.data :=
  String.data_append s t

theorem string_eq_of_data {s t : String} (h : s.data = t.data) : s = t := by
  cases s; cases t; exact congrArg String.mk h

/-- Every character produced by `natDigits` is a decimal digit. -/
theorem natDigits_mem_digit (n : Nat) :
    ∀ c ∈ natDigits n, 48 ≤ c.toNat ∧ c.toNat ≤ 57 := by
  induction n using Nat.strong_induction_on with
  | _ n ih =>
    intro c hc
    rw [natDigits_eq] at hc
    by_cases h : n < 10
    · rw [if_pos h] at hc
      simp only [List.mem_singleton] at hc
      subst hc
      interval_cases n <;> simp [Nat.digitChar]
    · rw [if_neg h] at hc
      simp only [List.mem_append, List.mem_singleton] at hc
      rcases hc with hc | hc
      · exact ih (n / 10) (Nat.div_lt_self (by omega) (by omega)) c hc
      · subst hc
        have h10 : n % 10 < 10 := Nat.mod_lt _ (by omega)
        interval_cases h' : n % 10 <;> simp [Nat.digitChar]

theorem natDigits_ne_nil (n : Nat) : natDigits n ≠ [] := by
  rw [natDigits_eq]
  by_cases h : n < 10 <;> simp [h]

theorem digitsVal_append_aux (l : List Char) :
    ∀ a : Nat, l.foldl (fun a c => 10 * a + (c.toNat - 48)) a =
      a * 10 ^ l.length + l.foldl (fun a c => 10 * a + (c.toNat - 48)) 0 := by
  induction l with
  | nil => intro a; simp
  | cons c rest ih =>
    intro a
    simp only [List.foldl_cons, List.length_cons]
    rw [ih (10 * a + (c.toNat - 48)), ih (10 * 0 + (c.toNat - 48))]
    ring

/-- The digits `natDigits n` round-trip through `digitsVal`. -/
theorem digitsVal_natDigits (n : Nat) : digitsVal (natDigits n) = n := by
  induction n using Nat.strong_induction_on with
  | _ n ih =>
    rw [natDigits_eq]
    by_cases h : n < 10
    · rw [if_pos h]
      simp [digitsVal]
      interval_cases n <;> simp [Nat.digitChar]
    · rw [if_neg h]
      have hrec := ih (n / 10) (Nat.div_lt_self (by omega) (by omega))
      have h10 : n % 10 < 10 := Nat.mod_lt _ (by omega)
      simp only [digitsVal, List.foldl_append, List.foldl_cons, List.foldl_nil]
      rw [show (natDigits (n / 10)).foldl (fun a c => 10 * a + (c.toNat - 48)) 0 = n / 10
        from hrec]
      have hd : (Nat.digitChar (n % 10)).toNat - 48 = n % 10 := by
        interval_cases h' : n % 10 <;> simp [Nat.digitChar]
      rw [hd]
      omega

theorem natDec_injective : Function.Injective natDec := by
  intro m n h
  have : natDigits m = natDigits n := congrArg String.data h
  have := congrArg digitsVal this
  rwa [digitsVal_natDigits, digitsVal_natDigits] at this

/-- No colon occurs in a decimal rendering. -/
theorem colon_not_mem_natDigits (n : Nat) : ':' ∉ natDigits n := by
  intro h
  have := natDigits_mem_digit n ':' h
  have hc : (':').toNat = 58 := rfl
  omega


/-! ### Codec lemmas -/

theorem pyEndsWith_iff {s t : String} : pyEndsWith s t = true ↔ t.data <:+ s.data := by
  simp [pyEndsWith]

theorem pyEndsWith_append (s t : String) : pyEndsWith (s ++ t) t = true := by
  rw [pyEndsWith_iff, string_append_data]
  exact List.suffix_append _ _

theorem pyRemoveSuffix_append (s t : String) : pyRemoveSuffix (s ++ t) t = s := by
  rw [pyRemoveSuffix, if_pos (pyEndsWith_append s t)]
  apply string_eq_of_data
  show ((s ++ t).data.take ((s ++ t).data.length - t.data.length)) = s.data
  rw [string_append_data, List.length_append,
    show s.data.length + t.data.length - t.data.length = s.data.length by omega]
  exact List.take_left _ _

theorem string_data_eq_nil_iff {s : String} : s.data = [] ↔ s = "" := by
  constructor
  · intro h; exact string_eq_of_data (by rw [h])
  · intro h; rw [h]

theorem payload_data (n s : String) : (n ++ ":" ++ s).data = n.data ++ (':' :: s.data) := by
  rw [string_append_data, string_append_data,
    show (":" : String).data = [':'] from rfl, List.append_assoc]
  rfl

/-- For a colon-free `s`, `n + ":" + s` ends with `":solved"` exactly when
`s` is the literal `solved`. -/
theorem endsWith_solved_append_iff (n s : String) (hs : ':' ∉ s.data) :
    pyEndsWith (n ++ ":" ++ s) ":solved" = true ↔ s = "solved" := by
  constructor
  · intro h
    rw [pyEndsWith_iff, payload_data] at h
    have hsuf : (':' :: s.data) <:+ n.data ++ (':' :: s.data) := List.suffix_append _ _
    by_cases hlen : s.data.length + 1 ≤ 7
    · have h2 : (':' :: s.data) <:+ (":solved").data :=
        List.suffix_of_suffix_length_le hsuf h (by
          have h7 : ((":solved").data).length = 7 := rfl
          have hc : ((':' :: s.data)).length = s.data.length + 1 := List.length_cons _ _
          omega)
      rw [show (":solved").data = ':' :: ("solved").data from rfl] at h2
      rcases List.suffix_cons_iff.mp h2 with h3 | h3
      · have h4 : s.data = ("solved").data := by
          injection h3 with h4a h4b
        exact string_eq_of_data h4
      · exact absurd (h3.subset (List.mem_cons_self _ _)) (by decide)
    · have h2 : (":solved").data <:+ (':' :: s.data) :=
        List.suffix_of_suffix_length_le h hsuf (by
          have h7 : ((":solved").data).length = 7 := rfl
          have hc : ((':' :: s.data)).length = s.data.length + 1 := List.length_cons _ _
          omega)
      rw [show (":solved").data = ':' :: ("solved").data from rfl] at h2
      rcases List.suffix_cons_iff.mp h2 with h3 | h3
      · have hlh := congrArg List.length h3
        have h7 : ((':' :: ("solved").data)).length = 7 := rfl
        have hc : ((':' :: s.data)).length = s.data.length + 1 := List.length_cons _ _
        omega
      · exact absurd (h3.subset (List.mem_cons_self _ _)) hs
  · intro h
    subst h
    rw [pyEndsWith_iff, payload_data,
      show ':' :: ("solved" : String).data = (":solved").data from rfl]
    exact List.suffix_append _ _

theorem dropWhile_append_of_all {p : Char → Bool} :
    ∀ (l₁ l₂ : List Char), (∀ x ∈ l₁, p x = true) →
      (l₁ ++ l₂).dropWhile p = l₂.dropWhile p := by
  intro l₁ l₂ h
  induction l₁ with
  | nil => rfl
  | cons a l ih =>
    simp only [List.cons_append, List.dropWhile_cons, h a (List.mem_cons_self _ _), if_true]
    exact ih (fun x hx => h x (List.mem_cons_of_mem _ hx))

/-- Python `rsplit(":", 1)[0]` recovers the prefix before an appended colon-free
suffix. -/
theorem pyRsplitBase_append (n s : String) (hs : ':' ∉ s.data) :
    pyRsplitBase (n ++ ":" ++ s) = n := by
  have hmem : ':' ∈ (n ++ ":" ++ s).data := by
    rw [payload_data]
    exact List.mem_append_right _ (List.mem_cons_self _ _)
  rw [pyRsplitBase, if_pos hmem]
  apply string_eq_of_data
  show ((((n ++ ":" ++ s).data.reverse.dropWhile (fun c => c ≠ ':')).tail).reverse) = n.data
  rw [payload_data, List.reverse_append, List.reverse_cons]
  rw [show s.data.reverse ++ [':'] ++ n.data.reverse
      = s.data.reverse ++ (':' :: n.data.reverse) by simp]
  rw [dropWhile_append_of_all _ _ (by
    intro x hx
    simp only [List.mem_reverse] at hx
    simp only [decide_eq_true_eq]
    exact fun hx' => hs (hx' ▸ hx))]
  rw [List.dropWhile_cons]
  simp

theorem pyRsplitBase_no_colon (s : String) (hs : ':' ∉ s.data) : pyRsplitBase s = s := by
  rw [pyRsplitBase, if_neg hs]

theorem string_append_assoc (a b c : String) : a ++ b ++ c = a ++ (b ++ c) := by
  apply string_eq_of_data
  simp [string_append_data, List.append_assoc]

/-- A payload ending in the literal `:solved` always decodes to the solved
acknowledgment, hitting the full payload (lines 254-256: `removesuffix`
followed by re-appending `":solved"` is the identity on such payloads). -/
theorem decodeAction_solved (nodes : NodeMap) (n : String) :
    decodeAction nodes (n ++ ":solved") = .solved (n ++ ":solved") := by
  rw [decodeAction, if_pos (pyEndsWith_append n ":solved"), pyRemoveSuffix_append]

/-- A payload that is a key of the node map, and does not end in `:solved`,
decodes to itself with no suffix stripping. -/
theorem decodeAction_direct {nodes : NodeMap} {n : String}
    (hs : pyEndsWith n ":solved" = false) (hn : (dictGet nodes n).isSome) :
    decodeAction nodes n = .goto n := by
  simp [decodeAction, hs, hn]

/-- The suffix-stripping fallback (lines 258-262): an unknown payload of the
form `n + ":" + s` with `s` colon-free and not `solved` decodes to `n`
whenever `n` is a key. -/
theorem decodeAction_strip {nodes : NodeMap} {n s : String}
    (hn : (dictGet nodes n).isSome) (hs : ':' ∉ s.data) (hsv : s ≠ "solved")
    (hfull : dictGet nodes (n ++ ":" ++ s) = none) :
    decodeAction nodes (n ++ ":" ++ s) = .goto n := by
  have hend : pyEndsWith (n ++ ":" ++ s) ":solved" = false := by
    cases h : pyEndsWith (n ++ ":" ++ s) ":solved"
    · rfl
    · exact absurd ((endsWith_solved_append_iff n s hs).mp h) hsv
  simp [decodeAction, hend, hfull, pyRsplitBase_append n s hs, hn]

/-- The dynamic-item template matches `ts:` + nonempty payload and hands the
payload to the callback. -/
theorem matchPayload_ts (p : String) (hp : p ≠ "") : matchPayload ("ts:" ++ p) = some p := by
  have hd : ("ts:" ++ p).data = ['t', 's', ':'] ++ p.data := string_append_data "ts:" p
  have hne : p.data ≠ [] := fun h => hp (string_data_eq_nil_iff.mp h)
  rw [matchPayload, hd]
  rw [if_pos ⟨List.take_left ['t', 's', ':'] p.data, by
    rw [List.length_append]
    have h3 : (['t', 's', ':'] : List Char).length = 3 := rfl
    have h0 : 0 < p.data.length := List.length_pos.mpr hne
    omega⟩]
  rw [show (['t', 's', ':'] ++ p.data).drop 3 = p.data from List.drop_left ['t', 's', ':'] p.data]

/-! ### Validation soundness: every checked reference of a valid tree resolves -/

theorem except_bind_ok {ε α β : Type} (a : α) (f : α → Except ε β) :
    (Except.ok a >>= f) = f a := rfl

theorem except_bind_err {ε α β : Type} (e : ε) (f : α → Except ε β) :
    ((Except.error e : Except ε α) >>= f) = .error e := rfl

theorem dictGet_mem {α : Type} :
    ∀ (m : List (String × α)) (k : String) (v : α), dictGet m k = some v → (k, v) ∈ m := by
  intro m k v
  induction m with
  | nil => intro h; simp [dictGet] at h
  | cons p rest ih =>
    intro h
    obtain ⟨k', v'⟩ := p
    simp only [dictGet] at h
    by_cases hk : k' = k
    · rw [if_pos hk] at h
      injection h with h'
      subst hk
      subst h'
      exact List.mem_cons_self _ _
    · rw [if_neg hk] at h
      exact List.mem_cons_of_mem _ (ih h)

theorem checkOptions_ok {m : NodeMap} {nid : String} :
    ∀ opts, checkOptions m nid opts = .ok () →
      ∀ opt ∈ opts, opt.next ≠ "" → hasNode m opt.next = true := by
  intro opts
  induction opts with
  | nil => intro _ opt h; simp at h
  | cons o rest ih =>
    intro hok opt hmem hne
    rw [checkOptions] at hok
    by_cases hcond : (o.next ≠ "" && !(hasNode m o.next)) = true
    · rw [if_pos hcond] at hok
      exact Except.noConfusion hok
    · rw [if_neg hcond] at hok
      rcases List.mem_cons.mp hmem with h | h
      · subst h
        rcases Bool.eq_false_or_eq_true (hasNode m opt.next) with ht | hf
        · exact ht
        · exact absurd (by simp [hne, hf]) hcond
      · exact ih hok opt h hne

theorem checkNode_ok_options {m : NodeMap} {nid : String} {node : Node}
    (h : checkNode m nid node = .ok ()) : checkOptions m nid node.options = .ok () := by
  rw [checkNode] at h
  cases hco : checkOptions m nid node.options with
  | error e => rw [hco, except_bind_err] at h; exact Except.noConfusion h
  | ok u => cases u; rfl

theorem validateNodes_ok (m : NodeMap) :
    ∀ l, validateNodes m l = .ok () → ∀ p ∈ l, checkNode m p.1 p.2 = .ok () := by
  intro l
  induction l with
  | nil => intro _ p hp; simp at hp
  | cons q rest ih =>
    intro hok p hp
    obtain ⟨nid, node⟩ := q
    rw [validateNodes] at hok
    cases hc : checkNode m nid node with
    | error e => rw [hc, except_bind_err] at hok; exact Except.noConfusion hok
    | ok u =>
      cases u
      rw [hc, except_bind_ok] at hok
      rcases List.mem_cons.mp hp with h | h
      · subst h; exact hc
      · exact ih hok p h

/-- In a tree accepted by `_validate_tree`, every nonempty option target of
every node resolves in the node map. -/
theorem valid_option_target {nodes : NodeMap} {qid : String} {node : Node} {opt : TSOption}
    (hval : validateTree nodes = .ok ()) (hn : dictGet nodes qid = some node)
    (ho : opt ∈ node.options) (hne : opt.next ≠ "") :
    (dictGet nodes opt.next).isSome = true := by
  have hmem := dictGet_mem nodes qid node hn
  have hnode := validateNodes_ok nodes nodes hval (qid, node) hmem
  have hopts := checkNode_ok_options hnode
  simpa [hasNode] using checkOptions_ok node.options hopts opt ho hne

/-! ### Facts about the option-button codec -/

theorem natDec_ne_empty (j : Nat) : natDec j ≠ "" := by
  intro h
  have h2 : natDigits j = [] := congrArg String.data h
  exact natDigits_ne_nil j h2

theorem natDec_ne_solved (j : Nat) : natDec j ≠ "solved" := by
  intro h
  have hd : natDigits j = ("solved").data := congrArg String.data h
  have hmem : 's' ∈ natDigits j := by rw [hd]; decide
  have := natDigits_mem_digit j 's' hmem
  have hs : ('s').toNat = 115 := rfl
  omega

theorem string_length_append (s t : String) : (s ++ t).length = s.length + t.length := by
  show (s ++ t).data.length = s.data.length + t.data.length
  rw [string_append_data, List.length_append]

theorem natDec_length_pos (j : Nat) : 0 < (natDec j).length :=
  List.length_pos.mpr (natDigits_ne_nil j)

theorem encodeCid_zero (t : String) : encodeCid t 0 = "ts:" ++ t := rfl

theorem encodeCid_pos (t : String) {c : Nat} (h : c ≠ 0) :
    encodeCid t c = "ts:" ++ t ++ ":" ++ natDec c := by
  simp [encodeCid, h]

theorem encodeCid_injective (t : String) : Function.Injective (encodeCid t) := by
  intro a b h
  by_cases ha : a = 0 <;> by_cases hb : b = 0
  · rw [ha, hb]
  · exfalso
    rw [ha, encodeCid_zero, encodeCid_pos t hb] at h
    have := congrArg String.length h
    simp only [string_length_append] at this
    have hp := natDec_length_pos b
    have hc1 : (":" : String).length = 1 := rfl
    have hts : ("ts:" : String).length = 3 := rfl
    omega
  · exfalso
    rw [hb, encodeCid_zero, encodeCid_pos t ha] at h
    have := congrArg String.length h
    simp only [string_length_append] at this
    have hp := natDec_length_pos a
    have hc1 : (":" : String).length = 1 := rfl
    have hts : ("ts:" : String).length = 3 := rfl
    omega
  · rw [encodeCid_pos t ha, encodeCid_pos t hb] at h
    have hd := congrArg String.data h
    rw [string_append_data, string_append_data] at hd
    have := List.append_cancel_left hd
    exact natDec_injective (string_eq_of_data this)

theorem questionButtons_length :
    ∀ (opts : List TSOption) (i0 : Nat) (seen : String → Nat),
      (questionButtons opts i0 seen).length = opts.length := by
  intro opts
  induction opts with
  | nil => intro _ _; rfl
  | cons o rest ih =>
    intro i0 seen
    simp only [questionButtons, List.length_cons]
    rw [ih]

theorem questionButtons_map_cid :
    ∀ (opts : List TSOption) (i0 : Nat) (seen : String → Nat),
      (questionButtons opts i0 seen).map itemCid
        = cidAssign (opts.map TSOption.next) seen := by
  intro opts
  induction opts with
  | nil => intro _ _; rfl
  | cons o rest ih =>
    intro i0 seen
    simp only [questionButtons, cidAssign, List.map_cons, itemCid]
    rw [ih]

/-- In the `seen`-count assignment, the custom ids handed to the
occurrences of a fixed target `t` are precisely the ordinal-suffixed
encodings `encodeCid t (seen t)`, `encodeCid t (seen t + 1)`, …, one per
occurrence. -/
theorem cidAssign_filter (t : String) :
    ∀ (ts : List String) (seen : String → Nat),
      (((ts.zip (cidAssign ts seen)).filter (fun p => p.1 = t)).map Prod.snd)
        = (List.range (ts.count t)).map (fun j => encodeCid t (seen t + j)) := by
  intro ts
  induction ts with
  | nil => intro seen; rfl
  | cons u rest ih =>
    intro seen
    by_cases hu : u = t
    · subst hu
      simp only [cidAssign, List.zip_cons_cons, List.filter_cons, decide_True,
        if_true, List.map_cons, List.count_cons_self]
      rw [ih (fun v => if v = u then seen u + 1 else seen v)]
      simp only [eq_self_iff_true, if_true]
      rw [List.range_succ_eq_map, List.map_cons, List.map_map]
      refine congrArg₂ List.cons rfl ?_
      have hfg : (fun j => encodeCid u (seen u + 1 + j))
          = ((fun j => encodeCid u (seen u + j)) ∘ Nat.succ) := by
        funext j
        simp only [Function.comp]
        exact congrArg (encodeCid u) (by omega)
      rw [hfg]
    · simp only [cidAssign, List.zip_cons_cons, List.filter_cons]
      rw [if_neg (by simp [hu])]
      rw [ih (fun v => if v = u then seen u + 1 else seen v)]
      have hseen : (if t = u then seen u + 1 else seen t) = seen t :=
        if_neg (fun h => hu h.symm)
      have hcnt : (u :: rest).count t = rest.count t :=
        List.count_cons_of_ne (fun h => hu h.symm) rest
      rw [hcnt]
      simp only [hseen]

theorem questionButtons_get :
    ∀ (opts : List TSOption) (i0 : Nat) (seen : String → Nat) (j : Nat), j < opts.length →
      ∃ c opt, opts.get? j = some opt ∧
        (questionButtons opts i0 seen).get? j
          = some (.button (pySlice opt.label 80) (encodeCid opt.next c)
              .primary none (some ((i0 + j) / 5))) := by
  intro opts
  induction opts with
  | nil => intro i0 seen j h; simp at h
  | cons o rest ih =>
    intro i0 seen j hj
    cases j with
    | zero => exact ⟨seen o.next, o, rfl, rfl⟩
    | succ j' =>
      have hj' : j' < rest.length := by
        simpa [List.length_cons] using hj
      obtain ⟨c, o', h1, h2⟩ :=
        ih (i0 + 1) (fun u => if u = o.next then seen o.next + 1 else seen u) j' hj'
      refine ⟨c, o', h1, ?_⟩
      simp only [questionButtons, List.get?_cons_succ]
      have harr : i0 + (j' + 1) = (i0 + 1) + j' := by omega
      rw [harr]
      exact h2

/-- The values carried by the select affordances for the options targeting
`t` are bare copies of `t`, one per occurrence (no disambiguation). -/
theorem selectOptions_filter (t : String) :
    ∀ (opts : List TSOption),
      (((opts.map (fun opt => (pySlice opt.label 100, opt.next))).filter
        (fun p => p.2 = t)).map Prod.snd)
        = List.replicate ((opts.map TSOption.next).count t) t := by
  intro opts
  induction opts with
  | nil => rfl
  | cons o rest ih =>
    by_cases ho : o.next = t
    · simp only [List.map_cons, List.filter_cons]
      rw [if_pos (by simp [ho])]
      simp only [List.map_cons]
      rw [ih, ho, List.count_cons_self]
      rfl
    · simp only [List.map_cons, List.filter_cons]
      rw [if_neg (by simp [ho])]
      rw [ih, List.count_cons_of_ne (fun h => ho h.symm)]

/-- The question branch of `render_node` (lines 121-136 plus the trailing
start-over button). -/
theorem render_node_question {nodes : NodeMap} {bugs : BugIndex} {qid : String} {node : Node}
    (hn : dictGet nodes qid = some node) (hq : node.type = "question") :
    (render_node nodes bugs qid).2
      = (if SELECT_THRESHOLD < node.options.length then [selectItem qid node.options]
         else questionButtons node.options 0 (fun _ => 0)) ++ [startOverButton] := by
  simp [render_node, hn, hq]

/-! ### Claim theorems -/

/-- C1: the claim says a failed load preserves the previously published
tree.  The code does not: `_nodes` is cleared and overwritten *before*
validation, so on the invalid config `exBadC1` (dangling `did_not_help`)
`load_tree` raises and the node map observable afterwards is the invalid
new map, not the previously published `exPrevC1`; the previously served
node `a` now renders the unknown-node error. -/
theorem claim1_failed_load_clobbers_previous_tree :
    (load_tree exPrevC1 exBadC1).1 = .error (.missingDidNotHelp "b" "missing") ∧
    (load_tree exPrevC1 exBadC1).2 = exBadC1 ∧
    exBadC1 ≠ exPrevC1 ∧
    (render_node (load_tree exPrevC1 exBadC1).2 bugsNone "a").1 =
      error_embed "Unknown node `a`" := by
  decide

/-- C2: the claim says validation checks the node-level `next` reference
and that an info node with a dangling `next` fails the load.  In the code
`_validate_tree` only checks `options[*].next` and `did_not_help`: the tree
`exTreeC2`, whose info node `intro` has `next = "ghost"` with no `ghost`
node, validates successfully. -/
theorem claim2_info_next_not_validated :
    dictGet exTreeC2 "intro" = some { type := "info", next := "ghost" } ∧
    dictGet exTreeC2 "ghost" = none ∧
    validateTree exTreeC2 = .ok () := by
  decide

/-- C3: the claim says traversal of a validated tree along rendered
affordances never reaches the unknown-node branch.  The validated tree
`exTreeC3` renders its entry info node with a `Continue` affordance whose
token `ts:nowhere` dispatches straight into the `Unknown node` error
branch, because the info `next` reference was never validated. -/
theorem claim3_validated_tree_reaches_unknown_node :
    validateTree exTreeC3 = .ok () ∧
    (render_node exTreeC3 bugsNone "root").2 =
      [Item.button "Continue" "ts:nowhere" .primary none none, startOverButton] ∧
    matchPayload "ts:nowhere" = some "nowhere" ∧
    unknownOutcome exTreeC3 "nowhere" = true ∧
    (render_node exTreeC3 bugsNone "nowhere").1 = error_embed "Unknown node `nowhere`" := by
  decide

/-- C4 counterexample: dispatching `ts:doesnotexist` against `exTreeC4`
changes the hit-counter state — the counter for the non-existent key
`doesnotexist` goes from 0 to 1 — refuting "the hit-counter state after
dispatch equals the state before". -/
theorem claim4_counterexample :
    pyEndsWith "doesnotexist" ":solved" = false ∧
    dictGet exTreeC4 "doesnotexist" = none ∧
    dictGet exTreeC4 (pyRsplitBase "doesnotexist") = none ∧
    (dispatch exTreeC4 bugsNone db0 "doesnotexist").2 "doesnotexist" = 1 ∧
    db0 "doesnotexist" = 0 ∧
    (dispatch exTreeC4 bugsNone db0 "doesnotexist").2 ≠ db0 := by
  refine ⟨by decide, by decide, by decide, by decide, by decide, ?_⟩
  intro hcontra
  have h1 : (dispatch exTreeC4 bugsNone db0 "doesnotexist").2 "doesnotexist" = 1 := by decide
  rw [hcontra] at h1
  exact absurd h1 (by decide)

/-- C4 (amended): dispatching a payload that is no node id, whose
colon-stripped prefix is no node id either, and which does not end in
`:solved`, renders the bounded unknown-node error payload without crashing
— but the hit counter for the unresolved payload is incremented by exactly
one (`_hit(node_id)` runs before `render_node` on line 263 regardless of
resolution); every other counter is unchanged. -/
theorem claim4_unknown_dispatch (nodes : NodeMap) (bugs : BugIndex) (db : Db) (p : String)
    (hs : pyEndsWith p ":solved" = false)
    (hp : dictGet nodes p = none)
    (hb : dictGet nodes (pyRsplitBase p) = none) :
    dispatch nodes bugs db p =
      ((error_embed ("Unknown node `" ++ p ++ "`"), []), hitInc db p) ∧
    hitInc db p p = db p + 1 ∧
    ∀ q, q ≠ p → hitInc db p q = db q := by
  have hdec : decodeAction nodes p = .goto p := by
    simp [decodeAction, hs, hp, hb]
  refine ⟨?_, by simp [hitInc], fun q hq => by simp [hitInc, hq]⟩
  simp [dispatch, hdec, render_node, hp]

/-- C4 witness: the amended statement evaluated at `ts:doesnotexist`
against the concrete tree `exTreeC4`. -/
theorem claim4_witness :
    pyEndsWith "doesnotexist" ":solved" = false ∧
    dictGet exTreeC4 "doesnotexist" = none ∧
    dictGet exTreeC4 (pyRsplitBase "doesnotexist") = none ∧
    dispatch exTreeC4 bugsNone db0 "doesnotexist" =
      ((error_embed "Unknown node `doesnotexist`", []), hitInc db0 "doesnotexist") ∧
    hitInc db0 "doesnotexist" "doesnotexist" = db0 "doesnotexist" + 1 ∧
    hitInc db0 "doesnotexist" "root" = db0 "root" := by
  have h := claim4_unknown_dispatch exTreeC4 bugsNone db0 "doesnotexist"
    (by decide) (by decide) (by decide)
  exact ⟨by decide, by decide, by decide, h.1, h.2.1, h.2.2 "root" (by decide)⟩

/-- C5 counterexample: the tree `exTreeC5` is valid but has no node with
id `root` (its only node is `start`), and dispatching `ts:root` yields the
unknown-node outcome — refuting "dispatching `ts:root` never yields the
unknown-node outcome ... regardless of which id the entry node is actually
configured under". -/
theorem claim5_counterexample :
    validateTree exTreeC5 = .ok () ∧
    matchPayload "ts:root" = some "root" ∧
    unknownOutcome exTreeC5 "root" = true ∧
    (dispatch exTreeC5 bugsNone db0 "root").1.1 = error_embed "Unknown node `root`" := by
  decide

/-- C5 (amended): `ts:root` always decodes to the literal node id `root` —
the fixed entry id hard-coded in the start handlers — for every tree, and
it takes the unknown-node branch exactly when no node with id `root`
exists; in particular it never does so on a tree containing `root`. -/
theorem claim5_root_token (nodes : NodeMap) :
    decodeAction nodes "root" = Action.goto "root" ∧
    unknownOutcome nodes "root" = (dictGet nodes "root").isNone := by
  have hend : pyEndsWith "root" ":solved" = false := by decide
  have hbase : pyRsplitBase "root" = "root" := by decide
  have hdec : decodeAction nodes "root" = Action.goto "root" := by
    rw [decodeAction, if_neg (by simp [hend])]
    simp only [hbase]
    by_cases h : (dictGet nodes "root").isSome <;> simp [h]
  refine ⟨hdec, ?_⟩
  simp [unknownOutcome, hdec]

/-- C7 counterexample: `x:solved` is a legal node id of the validated tree
`exTreeC7`, yet its bare token `ts:x:solved` decodes to the Solved state,
not to the node — refuting "for every node id n ... decoding the token
`ts:` + n yields exactly n". -/
theorem claim7_counterexample :
    validateTree exTreeC7 = .ok () ∧
    (dictGet exTreeC7 "x:solved").isSome = true ∧
    matchPayload "ts:x:solved" = some "x:solved" ∧
    decodeAction exTreeC7 "x:solved" = .solved "x:solved" ∧
    decodeAction exTreeC7 "x:solved" ≠ Action.goto "x:solved" := by
  decide

/-- C7 (amended): for every nonempty node id `n` that does not end in the
literal `:solved`, the suffix-free token `ts:` + n matches the template
with payload `n` and dispatch resolves to exactly the node `n` — not to
another node and not to the Solved state. -/
theorem claim7_bare_roundtrip (nodes : NodeMap) (bugs : BugIndex) (db : Db) (n : String)
    (hne : n ≠ "") (hn : (dictGet nodes n).isSome = true)
    (hs : pyEndsWith n ":solved" = false) :
    matchPayload ("ts:" ++ n) = some n ∧
    decodeAction nodes n = Action.goto n ∧
    dispatch nodes bugs db n = (render_node nodes bugs n, hitInc db n) := by
  have hdec := decodeAction_direct hs hn
  exact ⟨matchPayload_ts n hne, hdec, by simp [dispatch, hdec]⟩

/-- C7 witness: the amended round-trip evaluated at node id `crash` of
`exTreeC7b`. -/
theorem claim7_witness :
    ("crash" : String) ≠ "" ∧
    (dictGet exTreeC7b "crash").isSome = true ∧
    pyEndsWith "crash" ":solved" = false ∧
    matchPayload "ts:crash" = some "crash" ∧
    decodeAction exTreeC7b "crash" = Action.goto "crash" := by
  have h := claim7_bare_roundtrip exTreeC7b bugsNone db0 "crash"
    (by decide) (by decide) (by decide)
  exact ⟨by decide, by decide, by decide, h.1, h.2.1⟩

/-- C8: a token `ts:` + n + `:solved` always decodes to the terminal Solved
state — for every tree, every hit store and every string `n` (in
particular every valid node id): the `:solved` check precedes any lookup or
numeric-suffix stripping, the solved acknowledgment is rendered, and the
counter hit is `n + ":solved"` itself. -/
theorem claim8_solved_token_terminal (nodes : NodeMap) (bugs : BugIndex) (db : Db) (n : String) :
    decodeAction nodes (n ++ ":solved") = .solved (n ++ ":solved") ∧
    dispatch nodes bugs db (n ++ ":solved") =
      (render_solved, hitInc db (n ++ ":solved")) := by
  have h := decodeAction_solved nodes n
  exact ⟨h, by simp [dispatch, h]⟩

/-- C10 counterexample: with known node `n` and the colon-free suffix
`solved`, the token `ts:n:solved` decodes to the Solved state, not to `n`
— refuting "for every suffix string s containing no colon ... the token
decodes to n". -/
theorem claim10_counterexample :
    (dictGet exTreeC10 "n").isSome = true ∧
    ':' ∉ ("solved" : String).data ∧
    dictGet exTreeC10 "n:solved" = none ∧
    decodeAction exTreeC10 "n:solved" = .solved "n:solved" ∧
    decodeAction exTreeC10 "n:solved" ≠ Action.goto "n" := by
  decide

/-- C10 (amended): the fallback strips any trailing colon-free suffix, not
only a numeric one, except the literal `solved` (which the `:solved` check
intercepts first): for every known node id `n` and colon-free suffix
`s ≠ "solved"` such that `n + ":" + s` is not itself a node id, the token
decodes to `n`. -/
theorem claim10_strip_any_suffix (nodes : NodeMap) (bugs : BugIndex) (db : Db) (n s : String)
    (hn : (dictGet nodes n).isSome = true) (hs : ':' ∉ s.data) (hsv : s ≠ "solved")
    (hfull : dictGet nodes (n ++ ":" ++ s) = none) :
    decodeAction nodes (n ++ ":" ++ s) = Action.goto n ∧
    dispatch nodes bugs db (n ++ ":" ++ s) = (render_node nodes bugs n, hitInc db n) := by
  have h := decodeAction_strip hn hs hsv hfull
  exact ⟨h, by simp [dispatch, h]⟩

/-- C10 witness: the non-numeric suffix `7b` is stripped, resolving
`ts:n:7b` to node `n` of `exTreeC10`. -/
theorem claim10_witness :
    (dictGet exTreeC10 "n").isSome = true ∧
    ':' ∉ ("7b" : String).data ∧
    ("7b" : String) ≠ "solved" ∧
    dictGet exTreeC10 ("n" ++ ":" ++ "7b") = none ∧
    decodeAction exTreeC10 ("n" ++ ":" ++ "7b") = Action.goto "n" := by
  have h := claim10_strip_any_suffix exTreeC10 bugsNone db0 "n" "7b"
    (by decide) (by decide) (by decide) (by decide)
  exact ⟨by decide, by decide, by decide, by decide, h.1⟩

/-- C6 counterexample: in the validated tree `exTreeC6` the question node
`big` has six options, two of which target `t1`; it renders as a select
whose values are the bare targets, so the two action identifiers emitted
for `t1` are both the string `t1` — not pairwise distinct — refuting the
claim "including when the node's option count exceeds the select
threshold". -/
theorem claim6_counterexample :
    validateTree exTreeC6 = .ok () ∧
    (render_node exTreeC6 bugsNone "big").2 =
      [Item.select "ts_sel:big" "Select your issue..."
        [("a", "t1"), ("b", "t1"), ("c", "t2"), ("d", "t3"), ("e", "t4"), ("f", "t5")],
       startOverButton] ∧
    ((([⟨"a", "t1"⟩, ⟨"b", "t1"⟩, ⟨"c", "t2"⟩, ⟨"d", "t3"⟩, ⟨"e", "t4"⟩,
        ⟨"f", "t5"⟩] : List TSOption).map
        (fun opt => (pySlice opt.label 100, opt.next))).filter
        (fun p => p.2 = "t1")).map Prod.snd = ["t1", "t1"] ∧
    ¬ (["t1", "t1"] : List String).Nodup := by
  decide

/-- C6 (amended): for a question node of a validated tree whose option list
targets `t` (nonempty, not ending in `:solved`) exactly `k ≥ 2` times, and
such that no ordinal-suffixed name `t:j` is itself a node id: when the node
is rendered as buttons (option count ≤ threshold) the `k` custom ids
emitted for those options are `ts:t`, `ts:t:1`, …, `ts:t:(k-1)` — pairwise
distinct, each matching the template and decoding to `t`; when it is
rendered as a select (count > threshold), the `k` identifiers carried for
those options are all the bare value `t`, with no disambiguation. -/
theorem claim6_repeated_target_tokens (nodes : NodeMap) (bugs : BugIndex)
    (qid t : String) (node : Node) (k : Nat)
    (hval : validateTree nodes = .ok ())
    (hn : dictGet nodes qid = some node) (hq : node.type = "question")
    (htne : t ≠ "") (hts : pyEndsWith t ":solved" = false)
    (hk : ((node.options.map TSOption.next).count t) = k) (hk2 : 2 ≤ k)
    (hnocoll : ∀ j, 1 ≤ j → j < k → dictGet nodes (t ++ ":" ++ natDec j) = none) :
    ((((node.options.map TSOption.next).zip
        (cidAssign (node.options.map TSOption.next) (fun _ => 0))).filter
        (fun p => p.1 = t)).map Prod.snd = (List.range k).map (encodeCid t))
    ∧ ((List.range k).map (encodeCid t)).Nodup
    ∧ (∀ j, j < k →
        matchPayload (encodeCid t j) = some (if j = 0 then t else t ++ ":" ++ natDec j))
    ∧ (∀ j, j < k →
        decodeAction nodes (if j = 0 then t else t ++ ":" ++ natDec j) = Action.goto t)
    ∧ (node.options.length ≤ SELECT_THRESHOLD →
        (render_node nodes bugs qid).2
          = questionButtons node.options 0 (fun _ => 0) ++ [startOverButton]
        ∧ (questionButtons node.options 0 (fun _ => 0)).map itemCid
            = cidAssign (node.options.map TSOption.next) (fun _ => 0))
    ∧ (SELECT_THRESHOLD < node.options.length →
        (render_node nodes bugs qid).2 = [selectItem qid node.options, startOverButton]
        ∧ (((node.options.map (fun opt => (pySlice opt.label 100, opt.next))).filter
            (fun p => p.2 = t)).map Prod.snd = List.replicate k t)) := by
  have ht : (dictGet nodes t).isSome = true := by
    have hpos : 0 < (node.options.map TSOption.next).count t := by rw [hk]; omega
    have htm : t ∈ node.options.map TSOption.next := List.count_pos_iff.mp hpos
    obtain ⟨opt, hom, hoe⟩ := List.mem_map.mp htm
    have := valid_option_target hval hn hom (by rw [hoe]; exact htne)
    rwa [hoe] at this
  refine ⟨?_, ?_, ?_, ?_, ?_, ?_⟩
  · rw [cidAssign_filter t, hk]
    have hfun : (fun j => encodeCid t ((fun _ => (0 : Nat)) t + j)) = encodeCid t := by
      funext j
      show encodeCid t (0 + j) = encodeCid t j
      rw [Nat.zero_add]
    rw [hfun]
  · exact (List.nodup_range k).map (encodeCid_injective t)
  · intro j hj
    by_cases hj0 : j = 0
    · subst hj0
      rw [if_pos rfl, encodeCid_zero]
      exact matchPayload_ts t htne
    · rw [if_neg hj0, encodeCid_pos t hj0]
      have hassoc : "ts:" ++ t ++ ":" ++ natDec j = "ts:" ++ (t ++ ":" ++ natDec j) := by
        apply string_eq_of_data
        simp [string_append_data, List.append_assoc]
      rw [hassoc]
      apply matchPayload_ts
      intro hemp
      have hdata : (t ++ ":" ++ natDec j).data = [] := congrArg String.data hemp
      rw [payload_data] at hdata
      simp at hdata
  · intro j hj
    by_cases hj0 : j = 0
    · rw [if_pos hj0]
      exact decodeAction_direct hts ht
    · rw [if_neg hj0]
      exact decodeAction_strip ht (colon_not_mem_natDigits j) (natDec_ne_solved j)
        (hnocoll j (by omega) hj)
  · intro hle
    refine ⟨?_, questionButtons_map_cid node.options 0 (fun _ => 0)⟩
    rw [render_node_question hn hq, if_neg (by omega)]
  · intro hgt
    refine ⟨?_, ?_⟩
    · rw [render_node_question hn hq, if_pos hgt]
      rfl
    · rw [selectOptions_filter t node.options, hk]

/-- C6 witness: the amended statement at the validated tree `exTreeC6b`,
whose question node `q` targets `fix` twice: the two ids are `ts:fix` and
`ts:fix:1`, distinct, and both payloads decode to `fix`. -/
theorem claim6_witness :
    validateTree exTreeC6b = .ok () ∧
    ((["fix", "fix"].zip (cidAssign ["fix", "fix"] (fun _ => 0))).filter
      (fun p => p.1 = "fix")).map Prod.snd = (List.range 2).map (encodeCid "fix") ∧
    ((List.range 2).map (encodeCid "fix")).Nodup ∧
    decodeAction exTreeC6b "fix" = Action.goto "fix" ∧
    decodeAction exTreeC6b ("fix" ++ ":" ++ natDec 1) = Action.goto "fix" := by
  have h := claim6_repeated_target_tokens exTreeC6b bugsNone "q" "fix"
    { type := "question", options := [⟨"A", "fix"⟩, ⟨"B", "fix"⟩] } 2
    (by decide) (by decide) rfl (by decide) (by decide) (by decide) (by decide)
    (by
      intro j h1 h2
      have hj1 : j = 1 := by omega
      subst hj1
      decide)
  exact ⟨by decide, h.1, h.2.1, h.2.2.2.1 0 (by omega), h.2.2.2.1 1 (by omega)⟩

/-- C9: rendering a question node with more than `SELECT_THRESHOLD` (5)
options yields one single-choice select listing every option with labels
truncated to 100 characters (plus the trailing start-over button);
rendering one with at most 5 options yields one primary button per option
carrying the codec-encoded target, label truncated to 80 characters, in
row `i / 5`, followed by the start-over button. -/
theorem claim9_question_rendering (nodes : NodeMap) (bugs : BugIndex)
    (qid : String) (node : Node)
    (hn : dictGet nodes qid = some node) (hq : node.type = "question") :
    (SELECT_THRESHOLD < node.options.length →
      (render_node nodes bugs qid).2 = [selectItem qid node.options, startOverButton] ∧
      selectItem qid node.options =
        Item.select ("ts_sel:" ++ qid) "Select your issue..."
          (node.options.map (fun opt => (pySlice opt.label 100, opt.next))))
    ∧ (node.options.length ≤ SELECT_THRESHOLD →
      (render_node nodes bugs qid).2.length = node.options.length + 1 ∧
      (∀ j, j < node.options.length → ∃ c opt, node.options.get? j = some opt ∧
        (render_node nodes bugs qid).2.get? j
          = some (Item.button (pySlice opt.label 80) (encodeCid opt.next c)
              ButtonStyle.primary none (some (j / 5)))) ∧
      (render_node nodes bugs qid).2.get? node.options.length = some startOverButton) := by
  constructor
  · intro hgt
    rw [render_node_question hn hq, if_pos hgt]
    exact ⟨rfl, rfl⟩
  · intro hle
    have hbase : (render_node nodes bugs qid).2
        = questionButtons node.options 0 (fun _ => 0) ++ [startOverButton] := by
      rw [render_node_question hn hq, if_neg (by omega)]
    have hlen := questionButtons_length node.options 0 (fun _ => 0)
    refine ⟨?_, ?_, ?_⟩
    · rw [hbase, List.length_append, hlen]
      rfl
    · intro j hj
      obtain ⟨c, opt, h1, h2⟩ := questionButtons_get node.options 0 (fun _ => 0) j hj
      refine ⟨c, opt, h1, ?_⟩
      rw [hbase, List.get?_append (by rw [hlen]; exact hj), h2, Nat.zero_add]
    · rw [hbase]
      have hcat := List.get?_concat_length
        (questionButtons node.options 0 (fun _ => 0)) startOverButton
      rw [hlen] at hcat
      exact hcat

/-- C9 witness: the two-option question node `q` of `exTreeC9` renders as
two buttons plus the start-over button. -/
theorem claim9_witness :
    dictGet exTreeC9 "q" = some exNodeC9 ∧
    exNodeC9.type = "question" ∧
    (render_node exTreeC9 bugsNone "q").2.length = 3 ∧
    (render_node exTreeC9 bugsNone "q").2.get? 2 = some startOverButton := by
  have h := claim9_question_rendering exTreeC9 bugsNone "q" exNodeC9 (by decide) rfl
  have h2 := h.2 (by decide)
  exact ⟨by decide, rfl, h2.1, h2.2.2⟩

end Toolscreen
